import Mathlib

/-!
Verification of the GhostLab42 Reboot display driver
(src/GhostLab42Reboot/GhostLab42Reboot.cpp).

The driver talks to two IS31FL3730 LED driver chips over the two-wire
(I2C) bus through the Arduino Wire library.  Every operation is a
straight-line sequence of Wire calls, so we embed the code as a writer
over bus events: Wire.beginTransmission, Wire.write and
Wire.endTransmission each emit one event, and a C++ function denotes the
list of events it emits, in order.
-/

/-- One Arduino Wire call, as observed on the bus. -/
inductive WireEv : Type where
  | beginT (addr : Nat)
  | writeB (b : Nat)
  | endT
deriving DecidableEq, Repr

-- Each I2C has a unique bus address (lines 13-14 of the source).
def IS31FL3730_DIGIT_4_I2C_ADDRESS : Nat := 0x63
def IS31FL3730_DIGIT_6_I2C_ADDRESS : Nat := 0x60

-- Register indices in the IS31FL3730 (lines 20-40 of the source).
def IS31FL3730_Data_Registers : Nat := 0x01
def IS31FL3730_Update_Column_Register : Nat := 0x0C
def IS31FL3730_Lighting_Effect_Register : Nat := 0x0D
def IS31FL3730_PWM_Register : Nat := 0x19
def IS31FL3730_Reset_Register : Nat := 0xFF

/-- Light correction lookup table (lines 45-56 of the source), 101 bytes. -/
def lightCorrectionTable : List Nat :=
  [ 0x00, 0x01, 0x01, 0x01, 0x01, 0x01, 0x01, 0x01, 0x01, 0x01, 0x01, 0x02,
    0x02, 0x02, 0x02, 0x02, 0x03, 0x03, 0x03, 0x04, 0x04, 0x04, 0x04, 0x05,
    0x05, 0x06, 0x06, 0x07, 0x07, 0x07, 0x08, 0x09, 0x09, 0x0A, 0x0A, 0x0B,
    0x0C, 0x0C, 0x0D, 0x0E, 0x0E, 0x0F, 0x10, 0x11, 0x12, 0x13, 0x14, 0x15,
    0x15, 0x17, 0x18, 0x19, 0x1A, 0x1B, 0x1C, 0x1D, 0x1F, 0x20, 0x21, 0x23,
    0x24, 0x25, 0x27, 0x28, 0x2A, 0x2C, 0x2D, 0x2F, 0x31, 0x32, 0x34, 0x36,
    0x38, 0x3A, 0x3C, 0x3E, 0x40, 0x42, 0x44, 0x46, 0x49, 0x4B, 0x4D, 0x50,
    0x52, 0x54, 0x57, 0x5A, 0x5C, 0x5F, 0x62, 0x64, 0x67, 0x6A, 0x6D, 0x70,
    0x73, 0x76, 0x79, 0x7D, 0x80 ]

/-- Arduino String::charAt (via String::operator[]) returns the character
at the index, or the NUL character 0 when the index is out of range. -/
def charAt (value : List Char) (i : Nat) : Char :=
  value.getD i (Char.ofNat 0)

/-- GhostLab42Reboot::writeCharacter (lines 234-295): the bytes the
if-else chain passes to Wire.write for one character.  Every branch of
the source emits one byte, except the M and W branches which emit two. -/
def writeCharacter (c : Char) : List Nat :=
  -- Numbers
  if c = '0' then [0x3F]
  else if c = '1' then [0x06]
  else if c = '2' then [0x5B]
  else if c = '3' then [0x4F]
  else if c = '4' then [0x66]
  else if c = '5' then [0x6D]
  else if c = '6' then [0x7D]
  else if c = '7' then [0x07]
  else if c = '8' then [0x7F]
  else if c = '9' then [0x6F]
  -- Letters
  else if c = 'A' ∨ c = 'a' then [0x77]
  else if c = 'B' ∨ c = 'b' then [0x7C]
  else if c = 'C' ∨ c = 'c' then [0x39]
  else if c = 'D' ∨ c = 'd' then [0x5E]
  else if c = 'E' ∨ c = 'e' then [0x79]
  else if c = 'F' ∨ c = 'f' then [0x71]
  else if c = 'G' ∨ c = 'g' then [0x3D]
  else if c = 'H' ∨ c = 'h' then [0x76]
  else if c = 'I' ∨ c = 'i' then [0x06]
  else if c = 'J' ∨ c = 'j' then [0x1E]
  else if c = 'K' ∨ c = 'k' then [0x76]
  else if c = 'L' ∨ c = 'l' then [0x38]
  else if c = 'M' ∨ c = 'm' then [0x33, 0x27]
  else if c = 'N' ∨ c = 'n' then [0x54]
  else if c = 'O' ∨ c = 'o' then [0x3F]
  else if c = 'P' ∨ c = 'p' then [0x73]
  else if c = 'Q' ∨ c = 'q' then [0x67]
  else if c = 'R' ∨ c = 'r' then [0x50]
  else if c = 'S' ∨ c = 's' then [0x6D]
  else if c = 'T' ∨ c = 't' then [0x78]
  else if c = 'U' ∨ c = 'u' then [0x3E]
  else if c = 'V' ∨ c = 'v' then [0x3E]
  else if c = 'W' ∨ c = 'w' then [0x3C, 0x1E]
  else if c = 'X' ∨ c = 'x' then [0x76]
  else if c = 'Y' ∨ c = 'y' then [0x6E]
  else if c = 'Z' ∨ c = 'z' then [0x5B]
  -- Symbols
  else if c = '?' then [0xA3]
  else if c = '!' then [0x82]
  else if c = '-' then [0x40]
  -- Anything else turns into a blank for that character space
  else [0x00]

/-- GhostLab42Reboot::setupWireTransmission (lines 213-225). -/
def setupWireTransmission (digits : Int) : List WireEv :=
  if digits = 4 then
    -- Use the four digit display
    [WireEv.beginT IS31FL3730_DIGIT_4_I2C_ADDRESS]
  else
    -- Use the six digit display
    [WireEv.beginT IS31FL3730_DIGIT_6_I2C_ADDRESS]

/-- The for loop of GhostLab42Reboot::write (lines 101-104): the bytes
written for the character positions start, start+1, ..., start+count-1. -/
def writeLoop (value : List Char) (start count : Nat) : List Nat :=
  match count with
  | 0 => []
  | Nat.succ n => writeCharacter (charAt value start) ++ writeLoop value (start + 1) n

/-- GhostLab42Reboot::write (lines 87-121). -/
def write (digits : Int) (value : List Char) : List WireEv :=
  -- if (digits != 4) digits = 6;
  let d : Int := if digits ≠ 4 then 6 else digits
  -- Write the display data in the temporary registers
  setupWireTransmission d
    ++ [WireEv.writeB IS31FL3730_Data_Registers]
    -- for (int i = 0; i < digits; i++) writeCharacter(value.charAt(i));
    ++ (writeLoop value 0 d.toNat).map WireEv.writeB
    ++ [WireEv.endT]
    -- Transfer the display data from the temporary registers to the display
    ++ setupWireTransmission d
    ++ [WireEv.writeB IS31FL3730_Update_Column_Register, WireEv.writeB 0x00,
        WireEv.endT]

/-- GhostLab42Reboot::setDisplayPowerMin (lines 174-181). -/
def setDisplayPowerMin (digits : Int) : List WireEv :=
  setupWireTransmission digits
    ++ [WireEv.writeB IS31FL3730_Lighting_Effect_Register,
        WireEv.writeB 0x08, -- Lowest level, 10mA
        WireEv.endT]

/-- GhostLab42Reboot::setDisplayPowerMax (lines 190-204). -/
def setDisplayPowerMax (digits : Int) : List WireEv :=
  setupWireTransmission digits
    ++ [WireEv.writeB IS31FL3730_Lighting_Effect_Register,
        WireEv.writeB 0x0B, -- Highest level, 20mA
        WireEv.endT]

/-- GhostLab42Reboot::resetDisplay (lines 130-142). -/
def resetDisplay (digits : Int) : List WireEv :=
  setupWireTransmission digits
    ++ [WireEv.writeB IS31FL3730_Reset_Register,
        WireEv.writeB 0x00,
        WireEv.endT]
    -- Reset the current
    ++ setDisplayPowerMax digits

/-- GhostLab42Reboot::setDisplayBrightness (lines 152-161).  The C++
indexes lightCorrectionTable[brightness] with no bounds check; an index
outside the table is undefined behaviour, modelled as none. -/
def setDisplayBrightness (digits brightness : Int) : Option (List WireEv) :=
  if brightness < 0 then none
  else
    (lightCorrectionTable.get? brightness.toNat).map fun b =>
      setupWireTransmission digits
        ++ [WireEv.writeB IS31FL3730_PWM_Register,
            WireEv.writeB b,
            WireEv.endT]

/-- GhostLab42Reboot::begin (lines 70-77), after Wire.begin (bus
initialisation, which opens no transaction). -/
def beginOp : List WireEv := setDisplayPowerMax 4 ++ setDisplayPowerMax 6

/-! ## Derived notions used by the claims -/

/-- Group a bus event trace into completed transactions: each
beginTransmission opens a transaction with its address, write appends a
byte to the open transaction, endTransmission completes it. -/
def transactionsFrom : List WireEv → Option (Nat × List Nat) → List (Nat × List Nat)
  | [], _ => []
  | WireEv.beginT a :: rest, _ => transactionsFrom rest (some (a, []))
  | WireEv.writeB b :: rest, some (a, bs) => transactionsFrom rest (some (a, bs ++ [b]))
  | WireEv.writeB _ :: rest, none => transactionsFrom rest none
  | WireEv.endT :: rest, some t => t :: transactionsFrom rest none
  | WireEv.endT :: rest, none => transactionsFrom rest none

/-- The completed transactions of a trace. -/
def txns (evs : List WireEv) : List (Nat × List Nat) :=
  transactionsFrom evs none

/-- The bus address each operation targets: 0x63 when exactly 4 digits
are requested, 0x60 otherwise. -/
def addrFor (digits : Int) : Nat :=
  if digits = 4 then IS31FL3730_DIGIT_4_I2C_ADDRESS
  else IS31FL3730_DIGIT_6_I2C_ADDRESS

/-- The digit count write actually iterates over: 4 stays 4, everything
else becomes 6. -/
def normDigits (digits : Int) : Nat :=
  if digits = 4 then 4 else 6

/-- The characters whose glyph occupies two digit positions. -/
def wideChars : List Char := ['M', 'm', 'W', 'w']

/-- The characters the driver maps to a non-default segment pattern. -/
def mappedChars : List Char :=
  ['0', '1', '2', '3', '4', '5', '6', '7', '8', '9',
   'A', 'a', 'B', 'b', 'C', 'c', 'D', 'd', 'E', 'e', 'F', 'f', 'G', 'g',
   'H', 'h', 'I', 'i', 'J', 'j', 'K', 'k', 'L', 'l', 'M', 'm', 'N', 'n',
   'O', 'o', 'P', 'p', 'Q', 'q', 'R', 'r', 'S', 's', 'T', 't', 'U', 'u',
   'V', 'v', 'W', 'w', 'X', 'x', 'Y', 'y', 'Z', 'z',
   '?', '!', '-']

/-- How many of the first d character positions of the input hold a
double-width character. -/
def wideCount (digits : Int) (value : List Char) : Nat :=
  ((List.range (normDigits digits)).filter
    (fun i => charAt value i ∈ wideChars)).length

/-- The addresses of the transactions a trace opens. -/
def beginAddrs (evs : List WireEv) : List Nat :=
  evs.filterMap fun e =>
    match e with
    | WireEv.beginT a => some a
    | _ => none

/-- A transaction staging data for the Lighting Effect Register carries
one of the two current presets. -/
def lightingEffectOk (ts : List (Nat × List Nat)) : Prop :=
  ∀ t ∈ ts, t.2.head? = some IS31FL3730_Lighting_Effect_Register →
    t.2 = [IS31FL3730_Lighting_Effect_Register, 0x08] ∨
    t.2 = [IS31FL3730_Lighting_Effect_Register, 0x0B]

/-! ## Helper lemmas -/

lemma transactionsFrom_writes (bs : List Nat) (rest : List WireEv) (a : Nat) (acc : List Nat) :
    transactionsFrom (bs.map WireEv.writeB ++ rest) (some (a, acc)) =
      transactionsFrom rest (some (a, acc ++ bs)) := by
  induction bs generalizing acc with
  | nil => simp
  | cons b bs ih =>
      simp only [List.map_cons, List.cons_append, transactionsFrom, List.append_eq, ih,
        List.append_assoc, List.singleton_append, List.nil_append]

lemma setupWireTransmission_eq (digits : Int) :
    setupWireTransmission digits = [WireEv.beginT (addrFor digits)] := by
  unfold setupWireTransmission addrFor
  split_ifs <;> rfl

lemma write_eq (digits : Int) (value : List Char) :
    write digits value =
      WireEv.beginT (addrFor digits) :: WireEv.writeB IS31FL3730_Data_Registers ::
        ((writeLoop value 0 (normDigits digits)).map WireEv.writeB
          ++ [WireEv.endT, WireEv.beginT (addrFor digits),
              WireEv.writeB IS31FL3730_Update_Column_Register, WireEv.writeB 0x00,
              WireEv.endT]) := by
  unfold write
  by_cases h : digits = 4
  · subst h
    simp [setupWireTransmission, addrFor, normDigits]
  · simp [setupWireTransmission, addrFor, normDigits, h]

lemma txns_write (digits : Int) (value : List Char) :
    txns (write digits value) =
      [(addrFor digits, IS31FL3730_Data_Registers :: writeLoop value 0 (normDigits digits)),
       (addrFor digits, [IS31FL3730_Update_Column_Register, 0x00])] := by
  rw [write_eq]
  simp only [txns, transactionsFrom, transactionsFrom_writes]
  simp [transactionsFrom]

lemma txns_setDisplayPowerMin (digits : Int) :
    txns (setDisplayPowerMin digits) =
      [(addrFor digits, [IS31FL3730_Lighting_Effect_Register, 0x08])] := by
  unfold setDisplayPowerMin
  rw [setupWireTransmission_eq]
  simp [txns, transactionsFrom]

lemma txns_setDisplayPowerMax (digits : Int) :
    txns (setDisplayPowerMax digits) =
      [(addrFor digits, [IS31FL3730_Lighting_Effect_Register, 0x0B])] := by
  unfold setDisplayPowerMax
  rw [setupWireTransmission_eq]
  simp [txns, transactionsFrom]

lemma txns_resetDisplay (digits : Int) :
    txns (resetDisplay digits) =
      [(addrFor digits, [IS31FL3730_Reset_Register, 0x00]),
       (addrFor digits, [IS31FL3730_Lighting_Effect_Register, 0x0B])] := by
  unfold resetDisplay setDisplayPowerMax
  rw [setupWireTransmission_eq]
  simp [txns, transactionsFrom, setupWireTransmission_eq]

lemma writeCharacter_unmapped (c : Char) (hc : c ∉ mappedChars) :
    writeCharacter c = [0x00] := by
  have hs : ∀ x ∈ mappedChars, c ≠ x := fun x hx h => hc (h ▸ hx)
  have hor : ∀ x y, x ∈ mappedChars → y ∈ mappedChars → ¬(c = x ∨ c = y) :=
    fun x y hx hy h => h.elim (fun h => hc (h ▸ hx)) (fun h => hc (h ▸ hy))
  unfold writeCharacter
  rw [if_neg (hs '0' (by decide)), if_neg (hs '1' (by decide)),
    if_neg (hs '2' (by decide)), if_neg (hs '3' (by decide)),
    if_neg (hs '4' (by decide)), if_neg (hs '5' (by decide)),
    if_neg (hs '6' (by decide)), if_neg (hs '7' (by decide)),
    if_neg (hs '8' (by decide)), if_neg (hs '9' (by decide)),
    if_neg (hor 'A' 'a' (by decide) (by decide)),
    if_neg (hor 'B' 'b' (by decide) (by decide)),
    if_neg (hor 'C' 'c' (by decide) (by decide)),
    if_neg (hor 'D' 'd' (by decide) (by decide)),
    if_neg (hor 'E' 'e' (by decide) (by decide)),
    if_neg (hor 'F' 'f' (by decide) (by decide)),
    if_neg (hor 'G' 'g' (by decide) (by decide)),
    if_neg (hor 'H' 'h' (by decide) (by decide)),
    if_neg (hor 'I' 'i' (by decide) (by decide)),
    if_neg (hor 'J' 'j' (by decide) (by decide)),
    if_neg (hor 'K' 'k' (by decide) (by decide)),
    if_neg (hor 'L' 'l' (by decide) (by decide)),
    if_neg (hor 'M' 'm' (by decide) (by decide)),
    if_neg (hor 'N' 'n' (by decide) (by decide)),
    if_neg (hor 'O' 'o' (by decide) (by decide)),
    if_neg (hor 'P' 'p' (by decide) (by decide)),
    if_neg (hor 'Q' 'q' (by decide) (by decide)),
    if_neg (hor 'R' 'r' (by decide) (by decide)),
    if_neg (hor 'S' 's' (by decide) (by decide)),
    if_neg (hor 'T' 't' (by decide) (by decide)),
    if_neg (hor 'U' 'u' (by decide) (by decide)),
    if_neg (hor 'V' 'v' (by decide) (by decide)),
    if_neg (hor 'W' 'w' (by decide) (by decide)),
    if_neg (hor 'X' 'x' (by decide) (by decide)),
    if_neg (hor 'Y' 'y' (by decide) (by decide)),
    if_neg (hor 'Z' 'z' (by decide) (by decide)),
    if_neg (hs '?' (by decide)), if_neg (hs '!' (by decide)),
    if_neg (hs '-' (by decide))]

lemma wide_subset_mapped : ∀ x ∈ wideChars, x ∈ mappedChars := by decide

lemma writeCharacter_length (c : Char) :
    (writeCharacter c).length = if c ∈ wideChars then 2 else 1 := by
  by_cases hm : c ∈ mappedChars
  · exact (by decide :
      ∀ x ∈ mappedChars, (writeCharacter x).length = if x ∈ wideChars then 2 else 1) c hm
  · have hw : c ∉ wideChars := fun h => hm (wide_subset_mapped c h)
    rw [writeCharacter_unmapped c hm, if_neg hw]
    rfl

lemma writeLoop_eq_flatMap (value : List Char) (s n : Nat) :
    writeLoop value s n =
      (List.range n).flatMap (fun j => writeCharacter (charAt value (s + j))) := by
  induction n generalizing s with
  | zero => rfl
  | succ n ih =>
      rw [writeLoop, List.range_succ_eq_map, List.flatMap_cons, List.flatMap_map, ih (s + 1)]
      have hfun : (fun j : Nat => writeCharacter (charAt value (s + 1 + j)))
          = fun a : Nat => writeCharacter (charAt value (s + a.succ)) :=
        funext fun a => by
          have h : s + a.succ = s + 1 + a := by omega
          rw [h]
      rw [hfun]
      rfl

lemma writeLoop_length (value : List Char) (s n : Nat) :
    (writeLoop value s n).length =
      n + ((List.range n).filter (fun j => charAt value (s + j) ∈ wideChars)).length := by
  induction n generalizing s with
  | zero => rfl
  | succ n ih =>
      rw [writeLoop, List.length_append, ih (s + 1), List.range_succ_eq_map,
        List.filter_cons, List.filter_map]
      have hfun : ((fun j : Nat => decide (charAt value (s + j) ∈ wideChars)) ∘ Nat.succ)
          = fun a : Nat => decide (charAt value (s + 1 + a) ∈ wideChars) :=
        funext fun a => by
          have h : s + a.succ = s + 1 + a := by omega
          simp only [Function.comp_apply, h]
      rw [hfun, writeCharacter_length]
      by_cases hw : charAt value s ∈ wideChars
      · simp [Nat.add_zero, hw]
        omega
      · simp [Nat.add_zero, hw]
        omega

lemma charAt_past_end (value : List Char) (i : Nat) (hi : value.length ≤ i) :
    charAt value i = Char.ofNat 0 := by
  unfold charAt
  exact List.getD_eq_default value (Char.ofNat 0) hi

lemma lightCorrectionTable_length : lightCorrectionTable.length = 101 := by decide

lemma setDisplayBrightness_some_eq (digits b : Int) (evs : List WireEv)
    (h : setDisplayBrightness digits b = some evs) :
    ∃ v, lightCorrectionTable.get? b.toNat = some v ∧
      evs = [WireEv.beginT (addrFor digits), WireEv.writeB IS31FL3730_PWM_Register,
             WireEv.writeB v, WireEv.endT] := by
  unfold setDisplayBrightness at h
  split_ifs at h with hneg
  rw [Option.map_eq_some'] at h
  obtain ⟨v, hv, hevs⟩ := h
  refine ⟨v, hv, ?_⟩
  rw [← hevs, setupWireTransmission_eq]
  rfl

lemma beginAddrs_writes (bs : List Nat) :
    beginAddrs (bs.map WireEv.writeB) = [] := by
  unfold beginAddrs
  rw [List.filterMap_map]
  induction bs with
  | nil => rfl
  | cons b bs ih => simp only [List.filterMap_cons]; exact ih

lemma beginAddrs_write (digits : Int) (value : List Char) :
    beginAddrs (write digits value) = [addrFor digits, addrFor digits] := by
  rw [write_eq]
  have h1 : beginAddrs ((writeLoop value 0 (normDigits digits)).map WireEv.writeB) = [] :=
    beginAddrs_writes _
  unfold beginAddrs at h1 ⊢
  simp [List.filterMap_append, List.filterMap_cons, h1]

lemma table_adjacent_le :
    ∀ k : Fin 100, lightCorrectionTable.getD k.val 0 ≤ lightCorrectionTable.getD (k.val + 1) 0 := by
  decide

lemma table_monotone (i j : Nat) (hij : i ≤ j) (hj : j ≤ 100) :
    lightCorrectionTable.getD i 0 ≤ lightCorrectionTable.getD j 0 := by
  induction j, hij using Nat.le_induction with
  | base => exact le_refl _
  | succ j hij ih =>
      have hj' : j < 100 := by omega
      exact le_trans (ih (by omega)) (table_adjacent_le ⟨j, hj'⟩)

/-! ## Claims -/

/-- C1: write stages the segment data in one transaction that starts
with the data-register index and holds exactly one writeCharacter
emission per position 0..digits-1 (digits normalised to 4 or 6),
blanking positions past the end of the input, and then latches with a
second, separate transaction on the Update Column Register. -/
theorem write_stages_then_latches (digits : Int) (value : List Char) :
    txns (write digits value) =
      [(addrFor digits,
         IS31FL3730_Data_Registers ::
           (List.range (normDigits digits)).flatMap
             (fun i => writeCharacter (charAt value i))),
       (addrFor digits, [IS31FL3730_Update_Column_Register, 0x00])] ∧
    normDigits digits = (if digits = 4 then 4 else 6) ∧
    (∀ i : Nat, value.length ≤ i → writeCharacter (charAt value i) = [0x00]) := by
  refine ⟨?_, rfl, ?_⟩
  · rw [txns_write, writeLoop_eq_flatMap]
    have hfun : (fun j : Nat => writeCharacter (charAt value (0 + j)))
        = fun i : Nat => writeCharacter (charAt value i) :=
      funext fun i => by rw [Nat.zero_add]
    rw [hfun]
  · intro i hi
    rw [charAt_past_end value i hi]
    exact writeCharacter_unmapped _ (by decide)

/-- C2: the character map is total: lowercase letters map exactly as
their uppercase counterparts, every mapped character gets a fixed
non-blank emission, and every character outside the mapped set (controls,
space, all other code points) maps to the blank byte 0x00. -/
theorem writeCharacter_total_mapping :
    (∀ i : Fin 26,
      writeCharacter (Char.ofNat (97 + i.val)) = writeCharacter (Char.ofNat (65 + i.val))) ∧
    (∀ c ∈ mappedChars, writeCharacter c ≠ [0x00]) ∧
    (∀ c : Char, c ∉ mappedChars → writeCharacter c = [0x00]) := by
  refine ⟨by decide, by decide, ?_⟩
  intro c hc
  exact writeCharacter_unmapped c hc

/-- C4: resetDisplay issues the reset-register transaction first and
then, before returning, a Lighting Effect Register transaction carrying
the maximum allowed current value 0x0B, which is therefore the last
transaction of the reset sequence. -/
theorem resetDisplay_reasserts_max_current (digits : Int) :
    txns (resetDisplay digits) =
      [(addrFor digits, [IS31FL3730_Reset_Register, 0x00]),
       (addrFor digits, [IS31FL3730_Lighting_Effect_Register, 0x0B])] ∧
    (txns (resetDisplay digits)).getLast? =
      some (addrFor digits, [IS31FL3730_Lighting_Effect_Register, 0x0B]) := by
  refine ⟨txns_resetDisplay digits, ?_⟩
  rw [txns_resetDisplay]
  rfl

/-- C5 counterexample: writeCharacter emits 0xA3 for the question mark,
and 0xA3 does not have its high bit clear. -/
theorem writeCharacter_high_bit_counterexample :
    writeCharacter '?' = [0xA3] ∧ ¬((0xA3 : Nat) < 0x80) := by
  decide

/-- C5 amended: every byte emitted by writeCharacter has its high
(decimal-point) bit clear, except for the two glyphs that use it: the
question mark (0xA3) and the exclamation mark (0x82). -/
theorem writeCharacter_seven_bit_amended (c : Char) (h1 : c ≠ '?') (h2 : c ≠ '!') :
    ∀ b ∈ writeCharacter c, b < 0x80 := by
  by_cases hm : c ∈ mappedChars
  · exact (by decide :
      ∀ x ∈ mappedChars, x ≠ '?' → x ≠ '!' → ∀ b ∈ writeCharacter x, b < 0x80) c hm h1 h2
  · rw [writeCharacter_unmapped c hm]
    intro b hb
    rw [List.mem_singleton] at hb
    omega

/-- C5 amended, witness at the letter A. -/
theorem writeCharacter_seven_bit_amended_witness :
    ('A' ≠ '?' ∧ 'A' ≠ '!') ∧ ∀ b ∈ writeCharacter 'A', b < 0x80 :=
  ⟨⟨by decide, by decide⟩,
   writeCharacter_seven_bit_amended 'A' (by decide) (by decide)⟩

/-- C6: M, m, W, w emit exactly the two-byte sequences 0x33 0x27 and
0x3C 0x1E; every other character emits exactly one byte. -/
theorem writeCharacter_wide_glyphs :
    writeCharacter 'M' = [0x33, 0x27] ∧ writeCharacter 'm' = [0x33, 0x27] ∧
    writeCharacter 'W' = [0x3C, 0x1E] ∧ writeCharacter 'w' = [0x3C, 0x1E] ∧
    (∀ c : Char, c ∉ wideChars → (writeCharacter c).length = 1) := by
  refine ⟨by decide, by decide, by decide, by decide, ?_⟩
  intro c hc
  rw [writeCharacter_length, if_neg hc]

/-- C3: setDisplayBrightness performs exactly one data write, the table
entry for the requested brightness sent to the PWM register; the table
has exactly 101 entries, so indices 0..100 are in bounds, and any other
brightness indexes past the table with no guard (undefined behaviour,
modelled as none). -/
theorem setDisplayBrightness_single_pwm_write (digits b : Int)
    (h : 0 ≤ b ∧ b ≤ 100) :
    lightCorrectionTable.length = 101 ∧
    setDisplayBrightness digits b =
      some [WireEv.beginT (addrFor digits), WireEv.writeB IS31FL3730_PWM_Register,
            WireEv.writeB (lightCorrectionTable.getD b.toNat 0), WireEv.endT] ∧
    (∀ b2 : Int, b2 < 0 ∨ 100 < b2 → setDisplayBrightness digits b2 = none) := by
  obtain ⟨h0, h100⟩ := h
  refine ⟨lightCorrectionTable_length, ?_, ?_⟩
  · unfold setDisplayBrightness
    rw [if_neg (by omega)]
    have hlt : b.toNat < lightCorrectionTable.length := by
      rw [lightCorrectionTable_length]; omega
    rw [List.get?_eq_get hlt, List.getD_eq_getElem lightCorrectionTable 0 hlt,
      Option.map_some', setupWireTransmission_eq]
    rfl
  · intro b2 hb2
    unfold setDisplayBrightness
    rcases hb2 with hb2 | hb2
    · rw [if_pos hb2]
    · rw [if_neg (by omega)]
      have h2 : lightCorrectionTable.get? b2.toNat = none := by
        rw [List.get?_eq_none, lightCorrectionTable_length]; omega
      rw [h2]
      rfl

/-- C3, witness at brightness 50 on the 4-digit display:
table entry 0x18 is sent to the PWM register. -/
theorem setDisplayBrightness_single_pwm_write_witness :
    (0 ≤ (50 : Int) ∧ (50 : Int) ≤ 100) ∧
    (lightCorrectionTable.length = 101 ∧
     setDisplayBrightness 4 50 =
       some [WireEv.beginT 0x63, WireEv.writeB 0x19, WireEv.writeB 0x18, WireEv.endT] ∧
     (∀ b2 : Int, b2 < 0 ∨ 100 < b2 → setDisplayBrightness 4 b2 = none)) :=
  ⟨⟨by decide, by decide⟩,
   setDisplayBrightness_single_pwm_write 4 50 ⟨by decide, by decide⟩⟩

/-- C7: every transaction any public operation opens targets the address
determined solely by the digits argument: 0x63 exactly when digits = 4,
0x60 otherwise. -/
theorem ops_target_single_address (digits brightness : Int) (value : List Char) :
    beginAddrs (write digits value) = [addrFor digits, addrFor digits] ∧
    beginAddrs (resetDisplay digits) = [addrFor digits, addrFor digits] ∧
    (∀ evs, setDisplayBrightness digits brightness = some evs →
      beginAddrs evs = [addrFor digits]) ∧
    addrFor digits = (if digits = 4 then 0x63 else 0x60) := by
  refine ⟨beginAddrs_write digits value, ?_, ?_, rfl⟩
  · unfold resetDisplay setDisplayPowerMax
    rw [setupWireTransmission_eq]
    unfold beginAddrs
    simp [List.filterMap_append, List.filterMap_cons]
  · intro evs hevs
    obtain ⟨v, hv, hevs'⟩ := setDisplayBrightness_some_eq digits brightness evs hevs
    rw [hevs']
    rfl

/-- C8 counterexample: the last table entry is 0x80 = 128, which is not
one of the 128 PWM levels 0..127. -/
theorem lightCorrectionTable_pwm_counterexample :
    lightCorrectionTable.getD 100 0 = 128 ∧ ¬(lightCorrectionTable.getD 100 0 < 128) := by
  decide

/-- C8 amended: the table is monotonically nondecreasing on indices
0..100 and not affine (nonlinear); entries at indices 0..99 are among
the 128 PWM levels 0..127, while the final entry (index 100) is
0x80 = 128, one past them. -/
theorem lightCorrectionTable_monotone_amended :
    (∀ i j : Nat, i ≤ j → j ≤ 100 →
      lightCorrectionTable.getD i 0 ≤ lightCorrectionTable.getD j 0) ∧
    (¬ ∃ a b : Nat, ∀ i : Nat, i ≤ 100 → lightCorrectionTable.getD i 0 = a * i + b) ∧
    (∀ i : Fin 100, lightCorrectionTable.getD i.val 0 < 128) ∧
    lightCorrectionTable.getD 100 0 = 128 := by
  refine ⟨table_monotone, ?_, by decide, by decide⟩
  rintro ⟨a, b, hab⟩
  have h0 := hab 0 (by omega)
  have h1 := hab 1 (by omega)
  have h100 := hab 100 (by omega)
  have e0 : lightCorrectionTable.getD 0 0 = 0 := by decide
  have e1 : lightCorrectionTable.getD 1 0 = 1 := by decide
  have e100 : lightCorrectionTable.getD 100 0 = 128 := by decide
  rw [e0] at h0
  rw [e1] at h1
  rw [e100] at h100
  omega

lemma txns_beginOp :
    txns beginOp =
      [(IS31FL3730_DIGIT_4_I2C_ADDRESS, [IS31FL3730_Lighting_Effect_Register, 0x0B]),
       (IS31FL3730_DIGIT_6_I2C_ADDRESS, [IS31FL3730_Lighting_Effect_Register, 0x0B])] := by
  rfl

/-- C9: exactly two current presets exist, each a single data-byte write
to the Lighting Effect Register: 0x08 (minimum) from setDisplayPowerMin
and 0x0B (maximum) from setDisplayPowerMax; and no transaction opened by
any operation stages any other value for that register. -/
theorem lighting_effect_register_values (digits brightness : Int) (value : List Char) :
    txns (setDisplayPowerMin digits) =
      [(addrFor digits, [IS31FL3730_Lighting_Effect_Register, 0x08])] ∧
    txns (setDisplayPowerMax digits) =
      [(addrFor digits, [IS31FL3730_Lighting_Effect_Register, 0x0B])] ∧
    lightingEffectOk (txns (write digits value)) ∧
    lightingEffectOk (txns (resetDisplay digits)) ∧
    lightingEffectOk (txns beginOp) ∧
    (∀ evs, setDisplayBrightness digits brightness = some evs →
      lightingEffectOk (txns evs)) ∧
    lightingEffectOk (txns (setDisplayPowerMin digits)) ∧
    lightingEffectOk (txns (setDisplayPowerMax digits)) := by
  refine ⟨txns_setDisplayPowerMin digits, txns_setDisplayPowerMax digits,
    ?_, ?_, ?_, ?_, ?_, ?_⟩
  · rw [txns_write]
    intro t ht hh
    simp only [List.mem_cons, List.not_mem_nil, or_false] at ht
    rcases ht with ht | ht <;> subst ht <;>
      simp [IS31FL3730_Data_Registers, IS31FL3730_Update_Column_Register,
        IS31FL3730_Lighting_Effect_Register] at hh
  · rw [txns_resetDisplay]
    intro t ht hh
    simp only [List.mem_cons, List.not_mem_nil, or_false] at ht
    rcases ht with ht | ht <;> subst ht
    · simp [IS31FL3730_Reset_Register, IS31FL3730_Lighting_Effect_Register] at hh
    · exact Or.inr rfl
  · rw [txns_beginOp]
    intro t ht hh
    simp only [List.mem_cons, List.not_mem_nil, or_false] at ht
    rcases ht with ht | ht <;> subst ht <;> exact Or.inr rfl
  · intro evs hevs
    obtain ⟨v, hv, hevs'⟩ := setDisplayBrightness_some_eq digits brightness evs hevs
    subst hevs'
    intro t ht hh
    have ht' : t = (addrFor digits, [IS31FL3730_PWM_Register, v]) := by
      simpa [txns, transactionsFrom] using ht
    subst ht'
    simp [IS31FL3730_PWM_Register, IS31FL3730_Lighting_Effect_Register] at hh
  · rw [txns_setDisplayPowerMin digits]
    intro t ht hh
    simp only [List.mem_cons, List.not_mem_nil, or_false] at ht
    subst ht
    exact Or.inl rfl
  · rw [txns_setDisplayPowerMax digits]
    intro t ht hh
    simp only [List.mem_cons, List.not_mem_nil, or_false] at ht
    subst ht
    exact Or.inr rfl

/-- C10: when k of the first digits positions hold a double-width
character (M, m, W or w), the staging transaction holds digits + k
segment bytes after the register index, not digits bytes: the loop never
shortens for wide glyphs, so the extra bytes shift later characters past
the display positions. -/
theorem write_wide_overflow (digits : Int) (value : List Char)
    (h : 1 ≤ wideCount digits value) :
    ((txns (write digits value)).headD (0, [])).2 =
      IS31FL3730_Data_Registers :: writeLoop value 0 (normDigits digits) ∧
    (writeLoop value 0 (normDigits digits)).length =
      normDigits digits + wideCount digits value ∧
    normDigits digits + wideCount digits value ≠ normDigits digits := by
  refine ⟨?_, ?_, by omega⟩
  · rw [txns_write]
    rfl
  · rw [writeLoop_length]
    unfold wideCount
    have hfun : (fun j : Nat => decide (charAt value (0 + j) ∈ wideChars))
        = fun j : Nat => decide (charAt value j ∈ wideChars) :=
      funext fun j => by rw [Nat.zero_add]
    rw [hfun]

/-- C10, witness: writing the single character M to the 4-digit display
stages 4 + 1 = 5 segment bytes. -/
theorem write_wide_overflow_witness :
    1 ≤ wideCount 4 ['M'] ∧
    (((txns (write 4 ['M'])).headD (0, [])).2 =
       IS31FL3730_Data_Registers :: writeLoop ['M'] 0 (normDigits 4) ∧
     (writeLoop ['M'] 0 (normDigits 4)).length = normDigits 4 + wideCount 4 ['M'] ∧
     normDigits 4 + wideCount 4 ['M'] ≠ normDigits 4) :=
  ⟨by decide, write_wide_overflow 4 ['M'] (by decide)⟩
